/-
  Verification of the quarterly brand-data association subsystem of
  rc_brand_explorer against its natural-language specification.

  The TypeScript sources are shallowly embedded as Lean definitions:
  * src/utils/brandMatcher.ts      -> normalizeBrandName, matchBrand, findBrandByName
  * src/utils/csvParser.ts         -> parseFloat model, parseMetric, csvRowToMetrics,
                                      extractQuarter
  * src/scripts/process-quarterly-data.ts -> processCSVRows, createQuarterIndex
  * src/services/quarterlyDataLoader.ts   -> loadQuarter, loadQuarters, isQuarterCached
  * src/services/brandAssociationService.ts -> getMetricsForQuarter,
                                      getAvailableQuartersForBrand, compareQuarters

  JavaScript strings are modelled by Lean String; String.prototype.trim /
  toUpperCase / toLowerCase are modelled char-wise (jsTrim, jsToUpper,
  jsToLower) which agrees with JS on the ASCII data this subsystem handles.
  JS numbers are modelled syntactically as decimal mantissa/exponent pairs
  (float rounding is irrelevant to every claim: metric values are only
  stored and looked up, never computed with).  JS Map / plain-object
  key-value state is modelled as association lists with Map.set update
  semantics (update in place, append when fresh).  async functions with a
  pure fetch environment are modelled as explicit state passing; the one
  claim about concurrent interleavings (request coalescing) uses an
  explicit two-caller step relation that suspends at the await point.
-/
import Mathlib

/-! ## Character/string helpers (models of the JS string primitives used) -/

/-- Model of the whitespace class that String.prototype.trim strips
(restricted to the ASCII whitespace occurring in this data set). -/
def isWS (c : Char) : Bool := (c == ' ') || (c == '\t') || (c == '\n') || (c == '\r')

/-- Model of String.prototype.trim. -/
def jsTrim (s : String) : String :=
  String.mk (((s.data.dropWhile isWS).reverse.dropWhile isWS).reverse)

/-- Model of String.prototype.toUpperCase (char-wise, ASCII-faithful). -/
def jsToUpper (s : String) : String := String.mk (s.data.map Char.toUpper)

/-- Model of String.prototype.toLowerCase (char-wise, ASCII-faithful). -/
def jsToLower (s : String) : String := String.mk (s.data.map Char.toLower)

/-- Code-unit lexicographic comparison, the default Array.prototype.sort
string comparator (ASCII-faithful). -/
def charListLe : List Char → List Char → Bool
  | [], _ => true
  | _ :: _, [] => false
  | a :: as, b :: bs =>
    if a.toNat < b.toNat then true
    else if b.toNat < a.toNat then false
    else charListLe as bs

def strLe (a b : String) : Bool := charListLe a.data b.data

/-- Model of Array.prototype.sort() on string arrays (a stable sort by the
default comparator; insertion sort is stable). -/
def sortStrings (l : List String) : List String :=
  l.insertionSort (fun a b => strLe a b = true)

theorem charListLe_total (a b : List Char) :
    charListLe a b = true ∨ charListLe b a = true := by
  induction a generalizing b with
  | nil => left; rfl
  | cons x xs ih =>
    cases b with
    | nil => right; rfl
    | cons y ys =>
      rcases Nat.lt_trichotomy x.toNat y.toNat with h | h | h
      · left; simp [charListLe, h]
      · have hxy : ¬ x.toNat < y.toNat := by omega
        have hyx : ¬ y.toNat < x.toNat := by omega
        rcases ih ys with h2 | h2
        · left; simp [charListLe, hxy, hyx, h2]
        · right; simp [charListLe, hxy, hyx, h2]
      · right; simp [charListLe, h]

theorem charListLe_trans (a b c : List Char) (hab : charListLe a b = true)
    (hbc : charListLe b c = true) : charListLe a c = true := by
  induction a generalizing b c with
  | nil => rfl
  | cons x xs ih =>
    cases b with
    | nil => simp [charListLe] at hab
    | cons y ys =>
      cases c with
      | nil => simp [charListLe] at hbc
      | cons z zs =>
        by_cases hxy : x.toNat < y.toNat
        · by_cases hyz : y.toNat < z.toNat
          · have : x.toNat < z.toNat := Nat.lt_trans hxy hyz
            simp [charListLe, this]
          · by_cases hzy : z.toNat < y.toNat
            · simp [charListLe, hyz, hzy] at hbc
            · have : y.toNat = z.toNat := by omega
              have : x.toNat < z.toNat := by omega
              simp [charListLe, this]
        · by_cases hyx : y.toNat < x.toNat
          · simp [charListLe, hxy, hyx] at hab
          · have hxyeq : x.toNat = y.toNat := by omega
            by_cases hyz : y.toNat < z.toNat
            · have : x.toNat < z.toNat := by omega
              simp [charListLe, this]
            · by_cases hzy : z.toNat < y.toNat
              · simp [charListLe, hyz, hzy] at hbc
              · have hxz : ¬ x.toNat < z.toNat := by omega
                have hzx : ¬ z.toNat < x.toNat := by omega
                simp [charListLe, hxy, hyx] at hab
                simp [charListLe, hyz, hzy] at hbc
                simp [charListLe, hxz, hzx]
                exact ih ys zs hab hbc

instance : IsTotal String (fun a b => strLe a b = true) :=
  ⟨fun a b => charListLe_total a.data b.data⟩

instance : IsTrans String (fun a b => strLe a b = true) :=
  ⟨fun a b c => charListLe_trans a.data b.data c.data⟩

/-! ## Association-list maps with JS Map.set / object-assignment semantics -/

/-- Lookup in an association list (Map.get / object indexing). -/
def mapGet {α : Type} : List (String × α) → String → Option α
  | [], _ => none
  | p :: ps, k => if p.1 == k then some p.2 else mapGet ps k

/-- Key-membership test (Map.has / `key in object`). -/
def mapHas {α : Type} : List (String × α) → String → Bool
  | [], _ => false
  | p :: ps, k => (p.1 == k) || mapHas ps k

/-- Map.set / object assignment: update in place when the key is present,
append otherwise (JS Map insertion-order semantics). -/
def mapSet {α : Type} (m : List (String × α)) (k : String) (v : α) :
    List (String × α) :=
  if mapHas m k then m.map (fun p => if p.1 == k then (k, v) else p)
  else m ++ [(k, v)]

theorem mapHas_iff_isSome {α : Type} (m : List (String × α)) (k : String) :
    mapHas m k = (mapGet m k).isSome := by
  induction m with
  | nil => rfl
  | cons p ps ih =>
    by_cases hp : p.1 = k
    · simp [mapHas, mapGet, hp]
    · simp [mapHas, mapGet, hp, ih]

theorem mapGet_replace_ne {α : Type} (m : List (String × α)) (k k' : String)
    (v : α) (h : k' ≠ k) :
    mapGet (m.map (fun p => if p.1 == k then (k, v) else p)) k' = mapGet m k' := by
  have hk : (k == k') = false := by
    simp only [beq_eq_false_iff_ne, ne_eq]
    exact fun e => h e.symm
  induction m with
  | nil => rfl
  | cons p ps ih =>
    by_cases hp : p.1 = k
    · simp only [List.map_cons, hp, beq_self_eq_true, if_true, mapGet, hk,
        Bool.false_eq_true]
      exact ih
    · by_cases hp' : p.1 = k'
      · have hne : (p.1 == k) = false := by simp [hp]
        simp [mapGet, hne, hp', h]
      · have hne : (p.1 == k) = false := by simp [hp]
        have hne' : (p.1 == k') = false := by simp [hp']
        simp only [List.map_cons, hne, Bool.false_eq_true, if_false, mapGet, hne']
        exact ih

theorem mapGet_replace_eq {α : Type} (m : List (String × α)) (k : String) (v : α)
    (hmem : mapHas m k = true) :
    mapGet (m.map (fun p => if p.1 == k then (k, v) else p)) k = some v := by
  induction m with
  | nil => simp [mapHas] at hmem
  | cons p ps ih =>
    by_cases hp : p.1 = k
    · simp [mapGet, hp]
    · have hne : (p.1 == k) = false := by simp [hp]
      simp only [mapHas, hne, Bool.false_or] at hmem
      simp only [List.map_cons, hne, Bool.false_eq_true, if_false, mapGet]
      exact ih hmem

theorem mapGet_append_single {α : Type} (m : List (String × α)) (k k' : String)
    (v : α) :
    mapGet (m ++ [(k, v)]) k' =
      match mapGet m k' with
      | some w => some w
      | none => if k = k' then some v else none := by
  induction m with
  | nil => simp [mapGet]
  | cons p ps ih =>
    by_cases hp : p.1 = k'
    · simp [mapGet, hp]
    · simp [mapGet, hp, ih]

theorem mapGet_mapSet {α : Type} (m : List (String × α)) (k k' : String) (v : α) :
    mapGet (mapSet m k v) k' = if k' = k then some v else mapGet m k' := by
  unfold mapSet
  by_cases hmem : mapHas m k = true
  · rw [if_pos hmem]
    by_cases hk' : k' = k
    · subst hk'
      rw [mapGet_replace_eq m k' v hmem, if_pos rfl]
    · rw [mapGet_replace_ne m k k' v hk', if_neg hk']
  · rw [if_neg hmem]
    rw [mapGet_append_single]
    have hget : mapGet m k = none := by
      rw [mapHas_iff_isSome] at hmem
      cases h : mapGet m k with
      | none => rfl
      | some w => exact absurd (by simp [h]) hmem
    by_cases hk' : k' = k
    · subst hk'
      simp [hget]
    · cases h : mapGet m k' with
      | none =>
        have hne : k ≠ k' := fun e => hk' e.symm
        simp only [h]
        simp [hne, hk']
      | some w =>
        simp only [h]
        rw [if_neg hk']

/-! ## Registry entries and the name matcher (src/utils/brandMatcher.ts) -/

/-- A registry entry; only the fields this subsystem reads are modelled
(`id` and `name` of the records in brands.json). -/
structure Brand where
  id : String
  name : String
deriving DecidableEq, Repr

/-- normalizeBrandName: trim whitespace and lowercase. -/
def normalizeBrandName (name : String) : String := jsToLower (jsTrim name)

/-- matchBrand: case-insensitive, whitespace-trimmed exact equality. -/
def matchBrand (brandName1 brandName2 : String) : Bool :=
  normalizeBrandName brandName1 == normalizeBrandName brandName2

/-- findBrandByName: first registry entry whose normalized name equals the
normalized candidate (Array.prototype.find). -/
def findBrandByName (searchName : String) (brands : List Brand) : Option Brand :=
  brands.find? (fun b => normalizeBrandName b.name == normalizeBrandName searchName)

/-- C7: matchBrand holds iff the trimmed, lowercased names are equal — so
matching is case- and whitespace-insensitive but never substring-based
(the three concrete examples) — and findBrandByName returns the first
registry entry whose normalized name equals the normalized candidate,
or none. -/
theorem matchBrand_normalized_exact_and_find_first :
    (∀ a b : String, matchBrand a b = true ↔ jsToLower (jsTrim a) = jsToLower (jsTrim b))
    ∧ matchBrand "YouTube" "youtube" = true
    ∧ matchBrand "  7UP  " "7up" = true
    ∧ matchBrand "YouTube" "YouTube Inc." = false
    ∧ (∀ (s : String) (brands : List Brand),
        (findBrandByName s brands = none ↔ ∀ b ∈ brands, matchBrand b.name s = false)
        ∧ ∀ b, findBrandByName s brands = some b →
            matchBrand b.name s = true ∧
            ∃ l₁ l₂, brands = l₁ ++ b :: l₂ ∧ ∀ x ∈ l₁, matchBrand x.name s = false) := by
  refine ⟨?_, by decide, by decide, by decide, ?_⟩
  · intro a b
    simp [matchBrand, normalizeBrandName]
  · intro s brands
    constructor
    · rw [findBrandByName, List.find?_eq_none]
      constructor
      · intro h b hb
        have := h b hb
        simpa [matchBrand] using this
      · intro h b hb
        have := h b hb
        simpa [matchBrand] using this
    · intro b
      induction brands with
      | nil => intro h; exact absurd h (by simp [findBrandByName])
      | cons hd tl ih =>
        intro h
        by_cases hhd : normalizeBrandName hd.name == normalizeBrandName s
        · rw [findBrandByName,
            @List.find?_cons_of_pos Brand
              (fun b => normalizeBrandName b.name == normalizeBrandName s) hd tl hhd] at h
          obtain rfl : hd = b := by injection h
          exact ⟨hhd, [], tl, rfl, by intro x hx; exact absurd hx (List.not_mem_nil x)⟩
        · rw [findBrandByName,
            @List.find?_cons_of_neg Brand
              (fun b => normalizeBrandName b.name == normalizeBrandName s) hd tl hhd] at h
          obtain ⟨hb, l₁, l₂, happ, hall⟩ := ih h
          refine ⟨hb, hd :: l₁, l₂, by rw [happ]; rfl, ?_⟩
          intro x hx
          rcases List.mem_cons.mp hx with rfl | hx'
          · simpa [matchBrand] using hhd
          · exact hall x hx'

/-- Witness for C7: instantiates the first-match clause of the theorem on a
concrete two-entry registry. -/
theorem matchBrand_normalized_exact_and_find_first_witness :
    matchBrand (Brand.mk "yt-1" "YouTube").name "youtube" = true :=
  ((matchBrand_normalized_exact_and_find_first.2.2.2.2 "youtube"
      [Brand.mk "yt-1" "YouTube", Brand.mk "7up-1" "7UP"]).2
    (Brand.mk "yt-1" "YouTube") (by decide)).1

/-! ## Metric parsing (src/utils/csvParser.ts) -/

/-- JS number values as produced by parseFloat on cell text.  `finite m e`
denotes the exact decimal m * 10^e (claims never compute with metric
values, so float rounding is not modelled); Infinity literals give the
signed infinities.  NaN is represented as `none` at use sites. -/
inductive JSNum where
  | finite (mant : Int) (exp10 : Int)
  | posInf
  | negInf
deriving DecidableEq, Repr

/-- Numeric value of a decimal-digit character. -/
def digitVal (c : Char) : Nat := c.toNat - 48

/-- Accumulate a digit string into a natural number. -/
def digitsToNat : Nat → List Char → Nat
  | acc, [] => acc
  | acc, c :: cs => digitsToNat (acc * 10 + digitVal c) cs

/-- Optional leading sign: returns (isNegative, rest). -/
def parseSign : List Char → Bool × List Char
  | '-' :: cs => (true, cs)
  | '+' :: cs => (false, cs)
  | cs => (false, cs)

/-- Model of the JS global parseFloat on a char list: skip leading
whitespace, optional sign, then either an Infinity literal or the longest
decimal literal (digits, optional fraction, optional well-formed exponent);
no digit consumed means NaN (none).  Trailing junk is ignored. -/
def parseFloatChars (cs0 : List Char) : Option JSNum :=
  let cs1 := cs0.dropWhile isWS
  let sgn := parseSign cs1
  let neg := sgn.1
  let cs2 := sgn.2
  if ("Infinity".data).isPrefixOf cs2 then
    some (if neg then JSNum.negInf else JSNum.posInf)
  else
    let intDigits := cs2.takeWhile Char.isDigit
    let cs3 := cs2.dropWhile Char.isDigit
    let fracPair :=
      match cs3 with
      | '.' :: rest => (rest.takeWhile Char.isDigit, rest.dropWhile Char.isDigit)
      | _ => ([], cs3)
    let fracDigits := fracPair.1
    let cs4 := fracPair.2
    if intDigits.isEmpty && fracDigits.isEmpty then none
    else
      let mantNat := digitsToNat 0 (intDigits ++ fracDigits)
      let mant : Int := if neg then -(mantNat : Int) else (mantNat : Int)
      let exp : Int :=
        match cs4 with
        | e :: rest =>
          if e == 'e' || e == 'E' then
            let esgn := parseSign rest
            let eDigits := esgn.2.takeWhile Char.isDigit
            if eDigits.isEmpty then 0
            else if esgn.1 then -((digitsToNat 0 eDigits : Nat) : Int)
            else ((digitsToNat 0 eDigits : Nat) : Int)
          else 0
        | [] => 0
      some (JSNum.finite mant (exp - (fracDigits.length : Int)))

/-- parseFloat on a string. -/
def jsParseFloat (s : String) : Option JSNum := parseFloatChars s.data

/-- The inner parseMetric of csvRowToMetrics: absent or falsy cell -> null,
blank cell -> null, otherwise parseFloat with NaN -> null. -/
def parseMetric (value : Option String) : Option JSNum :=
  match value with
  | none => none
  | some v =>
    if v == "" || jsTrim v == "" then none
    else jsParseFloat v

/-- The metric columns of BrandMetrics, in source declaration order. -/
def metricColumns : List String :=
  [ "Total_Users_pct", "Total_Prefer_pct",
    "Energized_Differentiation_C", "Relevance_C", "Esteem_C", "Knowledge_C",
    "Brand_Stature_C", "Brand_Strength_C", "Brand_Asset_C",
    "Different_pct", "Distinctive_pct", "Unique_pct", "Dynamic_pct",
    "Innovative_pct", "Leader_pct", "Original_pct", "Cutting_Edge_C",
    "Reliable_pct", "High_quality_pct", "High_Performance_pct", "Superior_C",
    "Worth_More_pct",
    "Arrogant_pct", "Authentic_pct", "Best_Brand_pct", "Carefree_pct",
    "Cares_Customers_pct", "Charming_pct", "Daring_pct", "Down_to_Earth_pct",
    "Energetic_pct", "Friendly_pct", "Fun_pct", "Gaining_In_Popularity_pct",
    "Glamorous_pct", "Good_Value_pct", "Healthy_pct", "Helpful_pct",
    "Independent_pct", "Intelligent_pct", "Kind_pct", "Obliging_pct",
    "Prestigious_pct", "Progressive_pct", "Restrained_pct", "Rugged_pct",
    "Sensuous_pct", "Simple_pct", "Social_pct", "Socially_Responsible_pct",
    "Straightforward_pct", "Stylish_pct", "Traditional_pct", "Trendy_pct",
    "Trustworthy_pct", "Unapproachable_pct", "Up_To_Date_pct",
    "Upper_Class_pct", "Visionary_pct",
    "Classic_C", "Chic_C", "Customer_Centric_C", "Outgoing_C",
    "No_Nonsense_C", "Distant_C",
    "Adapts_to_my_needs_pct", "Belong_to_a_club_pct",
    "Best_option_available_pct", "Fairly_priced_pct", "Feel_loyal_pct",
    "Goes_out_of_its_way_pct", "Identify_with_other_users_pct",
    "Interested_learning_more_pct", "Interested_special_events_pct",
    "Meets_my_needs_completely_pct", "My_kind_of_brand_pct",
    "One_of_my_favorite_brands_pct", "Recommend_to_a_friend_pct",
    "Resolves_conflicts_well_pct", "Strongest_relationship_pct",
    "Want_my_business_pct", "Worth_a_premium_price_pct",
    "Would_miss_if_went_away_pct",
    "Regard_MS" ]

/-- One raw CSV row: column name -> raw cell text (`none` = column absent,
i.e. undefined in JS). -/
abbrev CSVRow := String → Option String

/-- csvRowToMetrics: the BrandMetrics record of a row, represented as the
(column, parsed value) pairs in declaration order. -/
def csvRowToMetrics (row : CSVRow) : List (String × Option JSNum) :=
  metricColumns.map (fun c => (c, parseMetric (row c)))

theorem mapGet_map_self {α : Type} (f : String → α) (l : List String)
    (c : String) (hc : c ∈ l) :
    mapGet (l.map (fun x => (x, f x))) c = some (f c) := by
  induction l with
  | nil => exact absurd hc (List.not_mem_nil c)
  | cons hd tl ih =>
    by_cases hhd : hd = c
    · simp [mapGet, hhd]
    · have : c ∈ tl := by
        rcases List.mem_cons.mp hc with h | h
        · exact absurd h.symm hhd
        · exact h
      simp [mapGet, hhd, ih this]

/-- C6: for every raw row and known metric column, csvRowToMetrics stores
exactly parseMetric of the cell; an empty/blank cell yields null, a
non-blank cell yields parseFloat of the text (NaN, i.e. a non-numeric
cell, yields null — parsing is total, no error is raised), and an empty
cell is null, never 0. -/
theorem csvRowToMetrics_blank_null_else_parse (row : CSVRow) (c : String)
    (hc : c ∈ metricColumns) :
    mapGet (csvRowToMetrics row) c = some (parseMetric (row c))
    ∧ (row c = none → parseMetric (row c) = none)
    ∧ (∀ s, row c = some s → jsTrim s = "" → parseMetric (row c) = none)
    ∧ (∀ s, row c = some s → jsTrim s ≠ "" → parseMetric (row c) = jsParseFloat s)
    ∧ (row c = some "" → parseMetric (row c) = none) := by
  refine ⟨mapGet_map_self (fun x => parseMetric (row x)) metricColumns c hc, ?_, ?_, ?_, ?_⟩
  · intro h; rw [h]; rfl
  · intro s hs htrim
    rw [hs]
    simp [parseMetric, htrim]
  · intro s hs htrim
    have hne : s ≠ "" := by
      intro h; subst h; exact htrim rfl
    rw [hs]
    simp [parseMetric, htrim, hne]
  · intro h
    rw [h]
    simp [parseMetric]

/-- Witness for C6 on concrete cells: "61.18" parses to the exact decimal
6118e-2, a blank cell and a non-numeric cell both give null. -/
theorem csvRowToMetrics_blank_null_else_parse_witness :
    mapGet (csvRowToMetrics (fun c =>
        if c = "Total_Users_pct" then some "61.18"
        else if c = "Total_Prefer_pct" then some "abc" else some " ")) "Total_Users_pct"
      = some (some (JSNum.finite 6118 (-2)))
    ∧ parseMetric (some "abc") = none
    ∧ parseMetric (some " ") = none := by
  refine ⟨?_, by decide, by decide⟩
  have h := csvRowToMetrics_blank_null_else_parse (fun c =>
    if c = "Total_Users_pct" then some "61.18"
    else if c = "Total_Prefer_pct" then some "abc" else some " ")
    "Total_Users_pct" (by decide)
  rw [h.1, h.2.2.2.1 "61.18" (by decide) (by decide)]
  decide

/-! ## Snapshot builder (src/scripts/process-quarterly-data.ts) -/

/-- One step of the regex /(\d{4}Q\d)/i at the current position. -/
def quarterPatAt : List Char → Option (List Char)
  | a :: b :: c :: d :: q :: e :: _ =>
    if a.isDigit && b.isDigit && c.isDigit && d.isDigit
        && (q == 'Q' || q == 'q') && e.isDigit
    then some [a, b, c, d, q, e] else none
  | _ => none

/-- Leftmost match of /(\d{4}Q\d)/i. -/
def findQuarterToken : List Char → Option (List Char)
  | [] => none
  | c :: cs =>
    match quarterPatAt (c :: cs) with
    | some m => some m
    | none => findQuarterToken cs

/-- extractQuarter: uppercase the first /(\d{4}Q\d)/i match of the
filename, or "UNKNOWN" when the pattern does not occur. -/
def extractQuarter (filename : String) : String :=
  match findQuarterToken filename.data with
  | some m => jsToUpper (String.mk m)
  | none => "UNKNOWN"

/-- A SnapshotRecord (QuarterlyDataRecord): one matched row's outcome.
csvBrandId/category are Option because the TS runtime value can be
undefined when the column is absent. -/
structure QuarterlyDataRecord where
  brandId : String
  brandName : String
  csvBrandId : Option String
  category : Option String
  metrics : List (String × Option JSNum)
deriving DecidableEq, Repr

/-- A PeriodDocument (QuarterlyData).  The processedAt build timestamp is
not modelled: no embedded operation ever reads it. -/
structure QuarterlyData where
  quarter : String
  sourceFile : String
  recordCount : Nat
  matchedBrands : Nat
  unmatchedBrands : List String
  records : List QuarterlyDataRecord
deriving DecidableEq, Repr

/-- The loop body of processCSVRows: skip blank names, emit a record on a
registry match, else append the raw name to unmatchedBrands (deduplicated). -/
def processRowStep (brands : List Brand)
    (acc : List QuarterlyDataRecord × List String) (row : CSVRow) :
    List QuarterlyDataRecord × List String :=
  match row "Brand name" with
  | none => acc
  | some csvBrandName =>
    if csvBrandName == "" || jsTrim csvBrandName == "" then acc
    else
      match findBrandByName csvBrandName brands with
      | some matchedBrand =>
        (acc.1 ++ [{ brandId := matchedBrand.id, brandName := matchedBrand.name,
                     csvBrandId := row "Brand id", category := row "Category",
                     metrics := csvRowToMetrics row }], acc.2)
      | none =>
        if acc.2.contains csvBrandName then acc
        else (acc.1, acc.2 ++ [csvBrandName])

/-- processCSVRows: fold the row loop over all parsed rows. -/
def processCSVRows (rows : List CSVRow) (brands : List Brand) :
    List QuarterlyDataRecord × List String :=
  rows.foldl (processRowStep brands) ([], [])

/-- The QuarterIndex shape (lastUpdated timestamp not modelled: never read). -/
structure QuarterIndex where
  quarters : List String
  quarterFiles : List (String × String)
  totalQuarters : Nat
deriving DecidableEq, Repr

/-- createQuarterIndex: sort the non-UNKNOWN quarter keys of the processed
documents (the source does not deduplicate), and map quarter ->
source file for every processed document (the source does not exclude
UNKNOWN here).  The csvFiles argument of the TS function is unused there
and dropped. -/
def createQuarterIndex (quarterlyDataList : List QuarterlyData) : QuarterIndex :=
  let quarters := sortStrings
    ((quarterlyDataList.map (fun q => q.quarter)).filter (fun q => q != "UNKNOWN"))
  let quarterFiles := quarterlyDataList.foldl
    (fun m q => mapSet m q.quarter q.sourceFile) []
  { quarters := quarters, quarterFiles := quarterFiles,
    totalQuarters := quarters.length }

/-- C4 counterexample: two source documents with the same period key
2010Q1 put TWO copies of 2010Q1 into the index `quarters` list, and a
document whose period key could not be determined (UNKNOWN) appears in the
period-to-source-file mapping.  Both parts of the claimed invariant fail. -/
theorem createQuarterIndex_dup_and_unknown_entry :
    (createQuarterIndex
      [ { quarter := "2010Q1", sourceFile := "2010Q1-Table 1.csv", recordCount := 0,
          matchedBrands := 0, unmatchedBrands := [], records := [] },
        { quarter := "2010Q1", sourceFile := "2010Q1-copy.csv", recordCount := 0,
          matchedBrands := 0, unmatchedBrands := [], records := [] },
        { quarter := "UNKNOWN", sourceFile := "data.csv", recordCount := 0,
          matchedBrands := 0, unmatchedBrands := [], records := [] } ]).quarters
      = ["2010Q1", "2010Q1"]
    ∧ mapGet (createQuarterIndex
      [ { quarter := "2010Q1", sourceFile := "2010Q1-Table 1.csv", recordCount := 0,
          matchedBrands := 0, unmatchedBrands := [], records := [] },
        { quarter := "2010Q1", sourceFile := "2010Q1-copy.csv", recordCount := 0,
          matchedBrands := 0, unmatchedBrands := [], records := [] },
        { quarter := "UNKNOWN", sourceFile := "data.csv", recordCount := 0,
          matchedBrands := 0, unmatchedBrands := [], records := [] } ]).quarterFiles
      "UNKNOWN" = some "data.csv" := by
  constructor
  · rfl
  · rfl

/-- C4 amended: the quarters list is sorted ascending and never contains
the UNKNOWN sentinel (but it may contain duplicates, and the
quarter-to-file mapping may contain an UNKNOWN entry, per the
counterexample). -/
theorem createQuarterIndex_sorted_and_no_unknown (l : List QuarterlyData) :
    List.Pairwise (fun a b => strLe a b = true) (createQuarterIndex l).quarters
    ∧ "UNKNOWN" ∉ (createQuarterIndex l).quarters := by
  constructor
  · exact List.sorted_insertionSort (fun a b => strLe a b = true)
      ((l.map (fun q => q.quarter)).filter (fun q => q != "UNKNOWN"))
  · intro hmem
    have hmem2 : "UNKNOWN" ∈ (l.map (fun q => q.quarter)).filter (fun q => q != "UNKNOWN") :=
      (List.perm_insertionSort (fun a b => strLe a b = true) _).subset hmem
    have := (List.mem_filter.mp hmem2).2
    simp at this

/-- Whether a row passes the name check and matches the registry (the
condition under which processCSVRows emits a record for it). -/
def rowMatches (brands : List Brand) (row : CSVRow) : Bool :=
  match row "Brand name" with
  | none => false
  | some n => !(n == "" || jsTrim n == "") && (findBrandByName n brands).isSome

/-- C5 counterexample: registry entry 7UP and two rows both named 7UP;
processCSVRows emits TWO SnapshotRecords for that entity, so the duplicate
row IS separately represented in the period document, contradicting the
claim that only the first occurrence yields a record. -/
theorem processCSVRows_duplicate_rows_both_emitted :
    ((processCSVRows
        [ fun c => if c = "Brand name" then some "7UP" else some "1",
          fun c => if c = "Brand name" then some "7UP" else some "2" ]
        [Brand.mk "7up-1" "7UP"]).1.map (fun r => r.brandId))
      = ["7up-1", "7up-1"] := by
  rfl

/-- C5 amended: every row with a non-blank name that matches a registry
entry produces its own SnapshotRecord — duplicates included — so the
number of emitted records equals the number of matching rows (read-side
lookups by brandId then always serve the first occurrence's record). -/
theorem processCSVRows_one_record_per_matching_row
    (rows : List CSVRow) (brands : List Brand) :
    (processCSVRows rows brands).1.length = rows.countP (rowMatches brands) := by
  have key : ∀ (rs : List CSVRow) (acc : List QuarterlyDataRecord × List String),
      (rs.foldl (processRowStep brands) acc).1.length
        = acc.1.length + rs.countP (rowMatches brands) := by
    intro rs
    induction rs with
    | nil => intro acc; simp
    | cons row rest ih =>
      intro acc
      rw [List.foldl_cons, ih (processRowStep brands acc row)]
      have hstep : (processRowStep brands acc row).1.length
          = acc.1.length + (if rowMatches brands row then 1 else 0) := by
        unfold processRowStep rowMatches
        cases hname : row "Brand name" with
        | none => simp
        | some n =>
          by_cases hblank : (n == "" || jsTrim n == "") = true
          · simp [hblank]
          · rw [Bool.not_eq_true] at hblank
            cases hfind : findBrandByName n brands with
            | some b => simp [hblank, hfind]
            | none =>
              by_cases hdup : acc.2.contains n = true
              · have hmem : n ∈ acc.2 := by simpa using hdup
                simp [hblank, hfind, hmem]
              · have hmem : n ∉ acc.2 := by simpa using hdup
                simp [hblank, hfind, hmem]
      rw [hstep]
      rw [List.countP_cons]
      by_cases hm : rowMatches brands row = true
      · simp [hm]; omega
      · rw [Bool.not_eq_true] at hm
        simp [hm]
  rw [processCSVRows, key rows ([], [])]
  simp

/-! ## Period store (src/services/quarterlyDataLoader.ts) -/

/-- The error kinds loadQuarter can raise: QuarterNotFoundError (HTTP 404),
InvalidQuarterDataError (shape validation failed), and the generic wrapper
for any other fetch/HTTP failure. -/
inductive LoadError where
  | quarterNotFound (quarter : String)
  | invalidQuarterData (quarter : String)
  | other
deriving DecidableEq, Repr

/-- Outcome of fetching the document at a normalized key: 404, another
HTTP error, a JSON body failing the structural validation (quarter or
records field absent / records not an array), or a body representable as
QuarterlyData (loadQuarter still re-checks falsiness of its quarter
field). -/
inductive Fetched where
  | missing
  | httpError
  | invalid
  | body (d : QuarterlyData)
deriving DecidableEq, Repr

/-- The static document location, one fetch outcome per normalized key.
Fetching is pure: the same key always yields the same outcome within one
claim (documents are static files). -/
abbrev Store := String → Fetched

/-- The in-memory document cache (a JS Map keyed by normalized quarter). -/
abbrev Cache := List (String × QuarterlyData)

/-- Metric records as stored in documents. -/
abbrev Metrics := List (String × Option JSNum)

/-- Result of one loadQuarter call: the settled promise, the cache
afterwards, and whether the underlying fetch was performed. -/
structure LoadResult where
  result : Except LoadError QuarterlyData
  cache : Cache
  fetched : Bool

/-- loadQuarter: normalize the key to uppercase, serve a cache hit
without fetching, otherwise fetch, distinguish 404 / invalid shape,
and cache only a validated document. -/
def loadQuarter (store : Store) (cache : Cache) (quarter : String) : LoadResult :=
  let normalizedQuarter := jsToUpper quarter
  match mapGet cache normalizedQuarter with
  | some d => { result := .ok d, cache := cache, fetched := false }
  | none =>
    match store normalizedQuarter with
    | .missing =>
      { result := .error (.quarterNotFound normalizedQuarter), cache := cache,
        fetched := true }
    | .httpError => { result := .error .other, cache := cache, fetched := true }
    | .invalid =>
      { result := .error (.invalidQuarterData normalizedQuarter), cache := cache,
        fetched := true }
    | .body d =>
      if d.quarter == "" then
        { result := .error (.invalidQuarterData normalizedQuarter), cache := cache,
          fetched := true }
      else
        { result := .ok d, cache := mapSet cache normalizedQuarter d, fetched := true }

/-- isQuarterCached: membership of the normalized key in the cache. -/
def isQuarterCached (cache : Cache) (quarter : String) : Bool :=
  mapHas cache (jsToUpper quarter)

/-- Merge the settled per-key results of a Promise.all: the first
rejection (in key order; with a pure fetch environment the rejection
observed is deterministic) fails the batch, otherwise all values. -/
def collectResults : List (String × Except LoadError QuarterlyData) →
    Except LoadError (List (String × QuarterlyData))
  | [] => .ok []
  | (_, .error e) :: _ => .error e
  | (k, .ok d) :: rest =>
    match collectResults rest with
    | .error e => .error e
    | .ok m => .ok ((k, d) :: m)

/-- results.forEach((data, index) => map.set(quarters[index].toUpperCase(), data)). -/
def buildMap (pairs : List (String × QuarterlyData)) : List (String × QuarterlyData) :=
  pairs.foldl (fun m p => mapSet m p.1 p.2) []

/-- One step of the loadQuarters fan-out: run loadQuarter, thread the
cache, record the settled result under the uppercased key. -/
def loadQuartersStep (store : Store)
    (acc : Cache × List (String × Except LoadError QuarterlyData)) (q : String) :
    Cache × List (String × Except LoadError QuarterlyData) :=
  let r := loadQuarter store acc.1 q
  (r.cache, acc.2 ++ [(jsToUpper q, r.result)])

/-- loadQuarters: fan-out of loadQuarter over the keys (with a pure fetch
environment the Promise.all fan-out is equivalent to left-to-right
threading of the cache), merged into a map keyed by the uppercased input
keys; any single failure fails the whole batch. -/
def loadQuarters (store : Store) (cache : Cache) (quarters : List String) :
    Except LoadError (List (String × QuarterlyData)) × Cache :=
  let out := quarters.foldl (loadQuartersStep store) (cache, [])
  match collectResults out.2 with
  | .error e => (.error e, out.1)
  | .ok pairs => (.ok (buildMap pairs), out.1)

/-- Cache consistency with the store: every cached entry is the valid
document the store serves at that key.  Holds for the empty cache and is
preserved by every load. -/
def CacheOk (store : Store) (cache : Cache) : Prop :=
  ∀ p ∈ cache, store p.1 = Fetched.body p.2 ∧ (p.2.quarter == "") = false

theorem cacheOk_nil (store : Store) : CacheOk store [] := by
  intro p hp
  exact absurd hp (List.not_mem_nil p)

theorem mem_mapSet {α : Type} (m : List (String × α)) (k : String) (v : α)
    (p : String × α) (hp : p ∈ mapSet m k v) : p ∈ m ∨ p = (k, v) := by
  unfold mapSet at hp
  by_cases hmem : mapHas m k = true
  · rw [if_pos hmem] at hp
    obtain ⟨q, hq, hfq⟩ := List.mem_map.mp hp
    by_cases hqk : q.1 = k
    · right
      rw [← hfq]
      simp [hqk]
    · left
      have hne : (q.1 == k) = false := by simp [hqk]
      rw [← hfq]
      simp [hne]
      exact hq
  · rw [if_neg hmem] at hp
    rcases List.mem_append.mp hp with h | h
    · exact Or.inl h
    · right
      simpa using h

theorem cacheOk_mapSet (store : Store) (cache : Cache) (k : String)
    (d : QuarterlyData) (hinv : CacheOk store cache)
    (hd : store k = Fetched.body d) (hq : (d.quarter == "") = false) :
    CacheOk store (mapSet cache k d) := by
  intro p hp
  rcases mem_mapSet cache k d p hp with h | h
  · exact hinv p h
  · rw [h]
    exact ⟨hd, hq⟩

theorem mapGet_some_mem {α : Type} (m : List (String × α)) (k : String) (v : α)
    (h : mapGet m k = some v) : (k, v) ∈ m := by
  induction m with
  | nil => exact absurd h (by simp [mapGet])
  | cons p ps ih =>
    by_cases hp : p.1 = k
    · rw [mapGet, if_pos (by simp [hp])] at h
      obtain rfl : p.2 = v := by injection h
      have hpeq : (k, p.2) = p := by
        rw [← hp]
      rw [hpeq]
      exact List.mem_cons_self p ps
    · rw [mapGet, if_neg (by simp [hp])] at h
      exact List.mem_cons_of_mem p (ih h)

/-- On a key the store serves a valid document for, loadQuarter succeeds
with exactly that document (whether by cache hit or by fetch) and
preserves cache consistency. -/
theorem loadQuarter_ok (store : Store) (cache : Cache) (q : String)
    (d : QuarterlyData) (hinv : CacheOk store cache)
    (hd : store (jsToUpper q) = Fetched.body d) (hq : (d.quarter == "") = false) :
    (loadQuarter store cache q).result = .ok d
    ∧ CacheOk store (loadQuarter store cache q).cache := by
  cases hget : mapGet cache (jsToUpper q) with
  | some d2 =>
    have hmem := mapGet_some_mem cache (jsToUpper q) d2 hget
    have hc := hinv (jsToUpper q, d2) hmem
    rw [hd] at hc
    obtain rfl : d = d2 := by injection hc.1
    constructor
    · simp [loadQuarter, hget]
    · have heq : (loadQuarter store cache q).cache = cache := by
        simp [loadQuarter, hget]
      rw [heq]
      exact hinv
  | none =>
    constructor
    · simp [loadQuarter, hget, hd, hq]
    · have heq : (loadQuarter store cache q).cache = mapSet cache (jsToUpper q) d := by
        simp [loadQuarter, hget, hd, hq]
      rw [heq]
      exact cacheOk_mapSet store cache (jsToUpper q) d hinv hd hq

/-- C8: once loadQuarter succeeds for a key, any second call with a key
that normalizes (uppercases) to the same string is served from the cache —
the same document, no new fetch — and isQuarterCached reports true. -/
theorem loadQuarter_second_call_cached (store : Store) (cache : Cache)
    (q k : String) (d : QuarterlyData)
    (hfst : (loadQuarter store cache q).result = .ok d)
    (hnorm : jsToUpper k = jsToUpper q) :
    loadQuarter store (loadQuarter store cache q).cache k
      = { result := .ok d, cache := (loadQuarter store cache q).cache, fetched := false }
    ∧ isQuarterCached (loadQuarter store cache q).cache k = true := by
  have hget2 : mapGet (loadQuarter store cache q).cache (jsToUpper q) = some d := by
    cases hget : mapGet cache (jsToUpper q) with
    | some d2 =>
      have hres : (loadQuarter store cache q).result = .ok d2 := by
        simp [loadQuarter, hget]
      rw [hfst] at hres
      obtain rfl : d = d2 := by injection hres
      have heq : (loadQuarter store cache q).cache = cache := by
        simp [loadQuarter, hget]
      rw [heq, hget]
    | none =>
      cases hst : store (jsToUpper q) with
      | missing =>
        have hres : (loadQuarter store cache q).result
            = .error (.quarterNotFound (jsToUpper q)) := by
          simp [loadQuarter, hget, hst]
        rw [hfst] at hres
        exact absurd hres (by simp)
      | httpError =>
        have hres : (loadQuarter store cache q).result = .error .other := by
          simp [loadQuarter, hget, hst]
        rw [hfst] at hres
        exact absurd hres (by simp)
      | invalid =>
        have hres : (loadQuarter store cache q).result
            = .error (.invalidQuarterData (jsToUpper q)) := by
          simp [loadQuarter, hget, hst]
        rw [hfst] at hres
        exact absurd hres (by simp)
      | body d2 =>
        by_cases hq2 : (d2.quarter == "") = true
        · have hres : (loadQuarter store cache q).result
              = .error (.invalidQuarterData (jsToUpper q)) := by
            simp [loadQuarter, hget, hst, hq2]
          rw [hfst] at hres
          exact absurd hres (by simp)
        · rw [Bool.not_eq_true] at hq2
          have hres : (loadQuarter store cache q).result = .ok d2 := by
            simp [loadQuarter, hget, hst, hq2]
          rw [hfst] at hres
          obtain rfl : d = d2 := by injection hres
          have heq : (loadQuarter store cache q).cache
              = mapSet cache (jsToUpper q) d := by
            simp [loadQuarter, hget, hst, hq2]
          rw [heq, mapGet_mapSet]
          simp
  have hgetk : mapGet (loadQuarter store cache q).cache (jsToUpper k) = some d := by
    rw [hnorm]
    exact hget2
  constructor
  · generalize hC : (loadQuarter store cache q).cache = C at hgetk ⊢
    simp [loadQuarter, hgetk]
  · rw [isQuarterCached, mapHas_iff_isSome, hgetk]
    rfl

/-- A concrete valid period document used by the loader witnesses. -/
def docA : QuarterlyData :=
  { quarter := "2010Q1", sourceFile := "2010Q1-Table 1.csv", recordCount := 1,
    matchedBrands := 1, unmatchedBrands := [],
    records := [{ brandId := "7up-1", brandName := "7UP", csvBrandId := some "42",
                  category := some "Beverages", metrics := [] }] }

/-- A concrete store serving docA at 2010Q1 and nothing else. -/
def storeA : Store := fun k => if k == "2010Q1" then Fetched.body docA else Fetched.missing

/-- Witness for C8: load 2010q1 against an empty cache, then ask again
with the differently-cased key; the second call is a cache hit. -/
theorem loadQuarter_second_call_cached_witness :
    loadQuarter storeA (loadQuarter storeA [] "2010q1").cache "2010Q1"
      = { result := .ok docA, cache := (loadQuarter storeA [] "2010q1").cache,
          fetched := false }
    ∧ isQuarterCached (loadQuarter storeA [] "2010q1").cache "2010Q1" = true :=
  loadQuarter_second_call_cached storeA [] "2010q1" "2010Q1" docA (by rfl) (by rfl)

/-- C9: a failed loadQuarter leaves the cache unchanged — the failure is
never cached — so the key stays uncached and a subsequent request for it
performs the fetch again and succeeds as soon as the store serves a valid
document. -/
theorem loadQuarter_failure_not_cached (store : Store) (cache : Cache)
    (q : String) (e : LoadError)
    (hfail : (loadQuarter store cache q).result = .error e) :
    (loadQuarter store cache q).cache = cache
    ∧ (loadQuarter store cache q).fetched = true
    ∧ isQuarterCached cache q = false
    ∧ ∀ (store2 : Store) (d : QuarterlyData),
        store2 (jsToUpper q) = Fetched.body d → (d.quarter == "") = false →
        (loadQuarter store2 cache q).result = .ok d
        ∧ (loadQuarter store2 cache q).fetched = true := by
  cases hget : mapGet cache (jsToUpper q) with
  | some d =>
    have hres : (loadQuarter store cache q).result = .ok d := by
      simp [loadQuarter, hget]
    rw [hfail] at hres
    exact absurd hres (by simp)
  | none =>
    have hmiss : isQuarterCached cache q = false := by
      rw [isQuarterCached, mapHas_iff_isSome, hget]
      rfl
    have hretry : ∀ (store2 : Store) (d : QuarterlyData),
        store2 (jsToUpper q) = Fetched.body d → (d.quarter == "") = false →
        (loadQuarter store2 cache q).result = .ok d
        ∧ (loadQuarter store2 cache q).fetched = true := by
      intro store2 d hd hq2
      constructor
      · simp [loadQuarter, hget, hd, hq2]
      · simp [loadQuarter, hget, hd, hq2]
    cases hst : store (jsToUpper q) with
    | missing =>
      refine ⟨?_, ?_, hmiss, hretry⟩
      · simp [loadQuarter, hget, hst]
      · simp [loadQuarter, hget, hst]
    | httpError =>
      refine ⟨?_, ?_, hmiss, hretry⟩
      · simp [loadQuarter, hget, hst]
      · simp [loadQuarter, hget, hst]
    | invalid =>
      refine ⟨?_, ?_, hmiss, hretry⟩
      · simp [loadQuarter, hget, hst]
      · simp [loadQuarter, hget, hst]
    | body d =>
      by_cases hq2 : (d.quarter == "") = true
      · refine ⟨?_, ?_, hmiss, hretry⟩
        · simp [loadQuarter, hget, hst, hq2]
        · simp [loadQuarter, hget, hst, hq2]
      · rw [Bool.not_eq_true] at hq2
        have hres : (loadQuarter store cache q).result = .ok d := by
          simp [loadQuarter, hget, hst, hq2]
        rw [hfail] at hres
        exact absurd hres (by simp)

/-- A store with no document at all (every fetch 404s). -/
def storeEmpty : Store := fun _ => Fetched.missing

/-- Witness for C9: a 404 load of 2010Q1 against the empty store keeps the
cache empty, and retrying against storeA (the document now exists)
performs the fetch and succeeds. -/
theorem loadQuarter_failure_not_cached_witness :
    (loadQuarter storeEmpty [] "2010Q1").cache = []
    ∧ (loadQuarter storeA [] "2010Q1").result = .ok docA :=
  have h := loadQuarter_failure_not_cached storeEmpty [] "2010Q1"
    (.quarterNotFound "2010Q1") (by rfl)
  ⟨h.1, (h.2.2.2 storeA docA (by rfl) (by rfl)).1⟩

/-! ## Association query layer (src/services/brandAssociationService.ts) -/

/-- Service-level failures: BrandNotFoundError, QuarterIndexLoadError,
and propagated loader errors. -/
inductive ServiceError where
  | brandNotFound (brandId : String)
  | indexLoad
  | load (e : LoadError)
deriving DecidableEq, Repr

/-- The environment a service call runs against: the registry (brands.json,
already loaded — brand caching inside the service is invisible to these
claims since the registry is a fixed pure value), the static document
store, and the outcome of fetching+validating index.json (none models
QuarterIndexLoadError; no claim concerns index caching). -/
structure Env where
  brands : List Brand
  store : Store
  index : Option QuarterIndex

/-- findBrandById: first registry entry with the id, else BrandNotFoundError. -/
def findBrandById (brands : List Brand) (brandId : String) : Except ServiceError Brand :=
  match brands.find? (fun b => b.id == brandId) with
  | some b => .ok b
  | none => .error (.brandNotFound brandId)

/-- getAvailableQuarters: the quarters list of the loaded index. -/
def getAvailableQuarters (env : Env) : Except ServiceError (List String) :=
  match env.index with
  | none => .error .indexLoad
  | some idx => .ok idx.quarters

/-- getMetricsForQuarter: verify the brand, load the quarter document
directly from the store (not via the index), then find the brand's
record; null (none) when the document has no record for it. -/
def getMetricsForQuarter (env : Env) (cache : Cache) (brandId quarter : String) :
    Except ServiceError (Option Metrics) × Cache :=
  match findBrandById env.brands brandId with
  | .error e => (.error e, cache)
  | .ok _ =>
    let r := loadQuarter env.store cache quarter
    match r.result with
    | .error e => (.error (.load e), r.cache)
    | .ok quarterData =>
      match quarterData.records.find? (fun rc => rc.brandId == brandId) with
      | some rc => (.ok (some rc.metrics), r.cache)
      | none => (.ok none, r.cache)

/-- getAvailableQuartersForBrand: verify the brand, load every index
quarter, keep the quarters whose document has a record for the brand,
sorted. -/
def getAvailableQuartersForBrand (env : Env) (cache : Cache) (brandId : String) :
    Except ServiceError (List String) × Cache :=
  match findBrandById env.brands brandId with
  | .error e => (.error e, cache)
  | .ok _ =>
    match getAvailableQuarters env with
    | .error e => (.error e, cache)
    | .ok allQuarters =>
      let lq := loadQuarters env.store cache allQuarters
      match lq.1 with
      | .error e => (.error (.load e), lq.2)
      | .ok quarterDataMap =>
        (.ok (sortStrings ((quarterDataMap.filter
          (fun p => p.2.records.any (fun r => r.brandId == brandId))).map
            (fun p => p.1))), lq.2)

/-- The loop body of compareQuarters: add the quarter to the comparison
map when its document has a record for the brand. -/
def comparisonStep (brandId : String) (comparison : List (String × Metrics))
    (p : String × QuarterlyData) : List (String × Metrics) :=
  match p.2.records.find? (fun r => r.brandId == brandId) with
  | some r => mapSet comparison p.1 r.metrics
  | none => comparison

/-- compareQuarters: verify the brand, load all requested quarters
(all-or-nothing), then build the comparison map restricted to quarters
whose document has a record for the brand. -/
def compareQuarters (env : Env) (cache : Cache) (brandId : String)
    (quarters : List String) :
    Except ServiceError (List (String × Metrics)) × Cache :=
  match findBrandById env.brands brandId with
  | .error e => (.error e, cache)
  | .ok _ =>
    let lq := loadQuarters env.store cache quarters
    match lq.1 with
    | .error e => (.error (.load e), lq.2)
    | .ok quarterDataMap =>
      (.ok (quarterDataMap.foldl (comparisonStep brandId) []), lq.2)

/-- C10: for a registered brand and an uncached period key, when the store
has no document at the key's location getMetricsForQuarter raises
QuarterNotFoundError (wrapped as a load error) rather than returning the
no-data marker; and it returns null (ok none) exactly when the document
exists, is structurally valid, and contains no record for the brand. -/
theorem getMetricsForQuarter_notFound_error_null_iff_no_record (env : Env)
    (cache : Cache) (brandId quarter : String) (b : Brand)
    (hb : env.brands.find? (fun x => x.id == brandId) = some b)
    (hnc : mapGet cache (jsToUpper quarter) = none) :
    (env.store (jsToUpper quarter) = Fetched.missing →
      (getMetricsForQuarter env cache brandId quarter).1
        = .error (.load (.quarterNotFound (jsToUpper quarter))))
    ∧ ((getMetricsForQuarter env cache brandId quarter).1 = .ok none ↔
        ∃ d, env.store (jsToUpper quarter) = Fetched.body d
          ∧ (d.quarter == "") = false
          ∧ d.records.find? (fun r => r.brandId == brandId) = none) := by
  cases hst : env.store (jsToUpper quarter) with
  | missing =>
    constructor
    · intro _
      simp [getMetricsForQuarter, findBrandById, hb, loadQuarter, hnc, hst]
    · constructor
      · intro h
        exact absurd h (by simp [getMetricsForQuarter, findBrandById, hb, loadQuarter, hnc, hst])
      · intro ⟨d, hd, _, _⟩
        exact absurd hd (by simp)
  | httpError =>
    constructor
    · intro h
      exact absurd h (by simp)
    · constructor
      · intro h
        exact absurd h (by simp [getMetricsForQuarter, findBrandById, hb, loadQuarter, hnc, hst])
      · intro ⟨d, hd, _, _⟩
        exact absurd hd (by simp)
  | invalid =>
    constructor
    · intro h
      exact absurd h (by simp)
    · constructor
      · intro h
        exact absurd h (by simp [getMetricsForQuarter, findBrandById, hb, loadQuarter, hnc, hst])
      · intro ⟨d, hd, _, _⟩
        exact absurd hd (by simp)
  | body d =>
    constructor
    · intro h
      exact absurd h (by simp)
    · by_cases hq : (d.quarter == "") = true
      · constructor
        · intro h
          exact absurd h
            (by simp [getMetricsForQuarter, findBrandById, hb, loadQuarter, hnc, hst, hq])
        · intro ⟨d2, hd2, hq2, _⟩
          obtain rfl : d = d2 := by injection hd2
          rw [hq] at hq2
          exact absurd hq2 (by simp)
      · rw [Bool.not_eq_true] at hq
        cases hfind : d.records.find? (fun r => r.brandId == brandId) with
        | some rc =>
          constructor
          · intro h
            exact absurd h
              (by simp [getMetricsForQuarter, findBrandById, hb, loadQuarter, hnc, hst, hq, hfind])
          · intro ⟨d2, hd2, _, hfind2⟩
            obtain rfl : d = d2 := by injection hd2
            rw [hfind] at hfind2
            exact absurd hfind2 (by simp)
        | none =>
          constructor
          · intro _
            exact ⟨d, rfl, hq, hfind⟩
          · intro _
            simp [getMetricsForQuarter, findBrandById, hb, loadQuarter, hnc, hst, hq, hfind]

/-- An environment whose store serves nothing (for the 404 half of the
C10 witness). -/
def envMissing : Env :=
  { brands := [Brand.mk "7up-1" "7UP"], store := storeEmpty,
    index := some { quarters := [], quarterFiles := [], totalQuarters := 0 } }

/-- An environment with a registered brand that has no record in docA
(for the null half of the C10 witness). -/
def envNoRecord : Env :=
  { brands := [Brand.mk "x-1" "X"], store := storeA,
    index := some { quarters := ["2010Q1"],
                    quarterFiles := [("2010Q1", "2010Q1-Table 1.csv")],
                    totalQuarters := 1 } }

/-- Witness for C10: against storeEmpty the call raises QuarterNotFound;
against storeA with a brand absent from the document it returns null. -/
theorem getMetricsForQuarter_notFound_error_null_iff_no_record_witness :
    (getMetricsForQuarter envMissing [] "7up-1" "2010Q1").1
      = .error (.load (.quarterNotFound "2010Q1"))
    ∧ (getMetricsForQuarter envNoRecord [] "x-1" "2010Q1").1 = .ok none :=
  ⟨(getMetricsForQuarter_notFound_error_null_iff_no_record envMissing [] "7up-1"
      "2010Q1" (Brand.mk "7up-1" "7UP") rfl rfl).1 rfl,
   (getMetricsForQuarter_notFound_error_null_iff_no_record envNoRecord [] "x-1"
      "2010Q1" (Brand.mk "x-1" "X") rfl rfl).2.mpr ⟨docA, rfl, rfl, rfl⟩⟩

/-! ## Characterization of loadQuarters on fully-served key sets -/

/-- The valid document the store serves at a normalized key (spec-side
helper; meaningful under the hypothesis that the store has one). -/
def docAtKey (store : Store) (k : String) : QuarterlyData :=
  match store k with
  | Fetched.body d => d
  | _ => { quarter := "", sourceFile := "", recordCount := 0, matchedBrands := 0,
           unmatchedBrands := [], records := [] }

/-- The merged document map loadQuarters produces when the store serves a
valid document for every requested key. -/
def docsMap (store : Store) (quarters : List String) : List (String × QuarterlyData) :=
  buildMap (quarters.map (fun q => (jsToUpper q, docAtKey store (jsToUpper q))))

/-- The record the brand has in the store's document at normalized key k,
if any (spec-side helper). -/
def recFor (store : Store) (brandId k : String) : Option QuarterlyDataRecord :=
  (docAtKey store k).records.find? (fun r => r.brandId == brandId)

theorem loadQuartersStep_foldl (store : Store) (quarters : List String) :
    ∀ (cache : Cache) (acc : List (String × Except LoadError QuarterlyData)),
    CacheOk store cache →
    (∀ q ∈ quarters, ∃ d, store (jsToUpper q) = Fetched.body d
      ∧ (d.quarter == "") = false) →
    (quarters.foldl (loadQuartersStep store) (cache, acc)).2
        = acc ++ quarters.map
            (fun q => (jsToUpper q, Except.ok (docAtKey store (jsToUpper q))))
    ∧ CacheOk store (quarters.foldl (loadQuartersStep store) (cache, acc)).1 := by
  induction quarters with
  | nil =>
    intro cache acc hinv _
    exact ⟨by simp, hinv⟩
  | cons q rest ih =>
    intro cache acc hinv hall
    obtain ⟨d, hd, hq⟩ := hall q (List.mem_cons_self q rest)
    have hlq := loadQuarter_ok store cache q d hinv hd hq
    have hdoc : docAtKey store (jsToUpper q) = d := by
      rw [docAtKey, hd]
    have hstep : loadQuartersStep store (cache, acc) q
        = ((loadQuarter store cache q).cache, acc ++ [(jsToUpper q, Except.ok d)]) := by
      simp only [loadQuartersStep]
      rw [hlq.1]
    rw [List.foldl_cons, hstep]
    obtain ⟨h2, hinv2⟩ := ih (loadQuarter store cache q).cache
      (acc ++ [(jsToUpper q, Except.ok d)]) hlq.2
      (fun p hp => hall p (List.mem_cons_of_mem q hp))
    refine ⟨?_, hinv2⟩
    rw [h2, List.map_cons, hdoc]
    simp

theorem collectResults_map_ok (pairs : List (String × QuarterlyData)) :
    collectResults (pairs.map (fun p => (p.1, Except.ok p.2))) = .ok pairs := by
  induction pairs with
  | nil => rfl
  | cons p ps ih =>
    rw [List.map_cons]
    simp [collectResults, ih]

/-- loadQuarters on keys the store fully serves: the batch succeeds with
the merged document map, and cache consistency is preserved. -/
theorem loadQuarters_ok (store : Store) (cache : Cache) (quarters : List String)
    (hinv : CacheOk store cache)
    (hall : ∀ q ∈ quarters, ∃ d, store (jsToUpper q) = Fetched.body d
      ∧ (d.quarter == "") = false) :
    (loadQuarters store cache quarters).1 = .ok (docsMap store quarters)
    ∧ CacheOk store (loadQuarters store cache quarters).2 := by
  obtain ⟨h2, hinv2⟩ := loadQuartersStep_foldl store quarters cache [] hinv hall
  have hmapped : quarters.map
      (fun q => (jsToUpper q,
        (Except.ok (docAtKey store (jsToUpper q)) : Except LoadError QuarterlyData)))
      = (quarters.map (fun q => (jsToUpper q, docAtKey store (jsToUpper q)))).map
          (fun p => (p.1, (Except.ok p.2 : Except LoadError QuarterlyData))) := by
    rw [List.map_map]
    rfl
  have hcol : collectResults (quarters.foldl (loadQuartersStep store) (cache, [])).2
      = .ok (quarters.map (fun q => (jsToUpper q, docAtKey store (jsToUpper q)))) := by
    rw [h2]
    rw [List.nil_append, hmapped, collectResults_map_ok]
  constructor
  · simp only [loadQuarters]
    rw [hcol]
    rfl
  · simp only [loadQuarters]
    rw [hcol]
    exact hinv2

theorem mapGet_foldl_mapSet_fn {α : Type} (g : String → String) (F : String → α)
    (keys : List String) :
    ∀ (acc : List (String × α)) (k : String),
    mapGet (keys.foldl (fun m q => mapSet m (g q) (F (g q))) acc) k
      = if k ∈ keys.map g then some (F k) else mapGet acc k := by
  induction keys with
  | nil =>
    intro acc k
    simp
  | cons q rest ih =>
    intro acc k
    rw [List.foldl_cons, ih (mapSet acc (g q) (F (g q))) k]
    by_cases hk : k ∈ rest.map g
    · simp [hk]
    · rw [if_neg hk, mapGet_mapSet]
      by_cases hkq : k = g q
      · have hmem : k ∈ (q :: rest).map g := by
          rw [List.map_cons, hkq]
          exact List.mem_cons_self _ _
        rw [if_pos hkq, if_pos hmem, hkq]
      · have hmem : k ∉ (q :: rest).map g := by
          rw [List.map_cons]
          intro hmem2
          rcases List.mem_cons.mp hmem2 with h | h
          · exact hkq h
          · exact hk h
        rw [if_neg hkq, if_neg hmem]

theorem mapGet_docsMap (store : Store) (quarters : List String) (k : String) :
    mapGet (docsMap store quarters) k
      = if k ∈ quarters.map jsToUpper then some (docAtKey store k) else none := by
  rw [docsMap, buildMap, List.foldl_map]
  have h := mapGet_foldl_mapSet_fn jsToUpper (fun x => docAtKey store x) quarters [] k
  simpa using h

theorem mapGet_isSome_iff_mem_keys {α : Type} (m : List (String × α)) (k : String) :
    (mapGet m k).isSome = true ↔ k ∈ m.map Prod.fst := by
  induction m with
  | nil => simp [mapGet]
  | cons p ps ih =>
    by_cases hp : p.1 = k
    · simp [mapGet, hp]
    · have hne : (p.1 == k) = false := by simp [hp]
      rw [List.map_cons]
      rw [mapGet, hne]
      simp only [Bool.false_eq_true, if_false]
      rw [ih]
      constructor
      · intro h
        exact List.mem_cons_of_mem _ h
      · intro h
        rcases List.mem_cons.mp h with h2 | h2
        · exact absurd h2.symm hp
        · exact h2

theorem mem_keys_docsMap (store : Store) (quarters : List String) (k : String) :
    k ∈ (docsMap store quarters).map Prod.fst ↔ k ∈ quarters.map jsToUpper := by
  rw [← mapGet_isSome_iff_mem_keys, mapGet_docsMap]
  by_cases hk : k ∈ quarters.map jsToUpper
  · simp [hk]
  · simp [hk]

theorem foldl_mapSet_fn_val {α : Type} (g : String → String) (F : String → α)
    (keys : List String) :
    ∀ (acc : List (String × α)), (∀ q ∈ acc, q.2 = F q.1) →
    ∀ p ∈ keys.foldl (fun m q => mapSet m (g q) (F (g q))) acc, p.2 = F p.1 := by
  induction keys with
  | nil =>
    intro acc hacc p hp
    exact hacc p hp
  | cons q rest ih =>
    intro acc hacc p hp
    rw [List.foldl_cons] at hp
    refine ih (mapSet acc (g q) (F (g q))) ?_ p hp
    intro x hx
    rcases mem_mapSet acc (g q) (F (g q)) x hx with h | h
    · exact hacc x h
    · rw [h]

theorem mem_docsMap_val (store : Store) (quarters : List String)
    (p : String × QuarterlyData) (hp : p ∈ docsMap store quarters) :
    p.2 = docAtKey store p.1 := by
  rw [docsMap, buildMap, List.foldl_map] at hp
  exact foldl_mapSet_fn_val jsToUpper (fun x => docAtKey store x) quarters []
    (fun q hq => absurd hq (List.not_mem_nil q)) p hp

/-- Lookup in the comparison map built by folding comparisonStep over a
document map whose entries are the store's documents at their keys. -/
theorem mapGet_comparison_foldl (store : Store) (brandId : String)
    (m : List (String × QuarterlyData))
    (hm : ∀ p ∈ m, p.2 = docAtKey store p.1) :
    ∀ (acc : List (String × Metrics)) (k : String),
    mapGet (m.foldl (comparisonStep brandId) acc) k
      = match (if k ∈ m.map Prod.fst then recFor store brandId k else none) with
        | some r => some r.metrics
        | none => mapGet acc k := by
  induction m with
  | nil =>
    intro acc k
    simp
  | cons p rest ih =>
    intro acc k
    have hpdoc : p.2 = docAtKey store p.1 := hm p (List.mem_cons_self p rest)
    have hstep : comparisonStep brandId acc p
        = match recFor store brandId p.1 with
          | some r => mapSet acc p.1 r.metrics
          | none => acc := by
      rw [comparisonStep, hpdoc, recFor]
    rw [List.foldl_cons, hstep,
      ih (fun x hx => hm x (List.mem_cons_of_mem p hx))]
    by_cases hk : k ∈ rest.map Prod.fst
    · have hk2 : k ∈ (p :: rest).map Prod.fst := by
        rw [List.map_cons]
        exact List.mem_cons_of_mem _ hk
      rw [if_pos hk, if_pos hk2]
      cases hrec : recFor store brandId k with
      | some r => rfl
      | none =>
        by_cases hkp : k = p.1
        · rw [← hkp, hrec]
        · cases hrecp : recFor store brandId p.1 with
          | some r =>
            rw [mapGet_mapSet, if_neg hkp]
          | none => rfl
    · rw [if_neg hk]
      by_cases hkp : k = p.1
      · have hk2 : k ∈ (p :: rest).map Prod.fst := by
          rw [List.map_cons, hkp]
          exact List.mem_cons_self _ _
        rw [if_pos hk2, hkp]
        cases hrec : recFor store brandId p.1 with
        | some r =>
          rw [mapGet_mapSet]
          rw [if_pos rfl]
        | none => rfl
      · have hk2 : k ∉ (p :: rest).map Prod.fst := by
          rw [List.map_cons]
          intro hmem
          rcases List.mem_cons.mp hmem with h | h
          · exact hkp h
          · exact hk h
        rw [if_neg hk2]
        cases hrec : recFor store brandId p.1 with
        | some r =>
          rw [mapGet_mapSet, if_neg hkp]
        | none => rfl

/-- C1: for a registered brand and a list of normalized period keys whose
documents all exist (and validate) in the store, compareQuarters returns
(rather than failing) a mapping whose key set is a subset of the requested
periods and exactly the requested periods in which the brand has a record;
requested periods where the brand has no record are simply omitted. -/
theorem compareQuarters_keys_eq_periods_inter_available (env : Env)
    (brandId : String) (quarters : List String) (b : Brand)
    (hb : env.brands.find? (fun x => x.id == brandId) = some b)
    (hnorm : ∀ q ∈ quarters, jsToUpper q = q)
    (hall : ∀ q ∈ quarters, ∃ d, env.store q = Fetched.body d
      ∧ (d.quarter == "") = false) :
    ∃ m, (compareQuarters env [] brandId quarters).1 = .ok m
      ∧ ∀ k, (mapGet m k).isSome = true ↔
          (k ∈ quarters ∧ (recFor env.store brandId k).isSome = true) := by
  have hall2 : ∀ q ∈ quarters, ∃ d, env.store (jsToUpper q) = Fetched.body d
      ∧ (d.quarter == "") = false := by
    intro q hq
    rw [hnorm q hq]
    exact hall q hq
  have hlq := loadQuarters_ok env.store [] quarters (cacheOk_nil env.store) hall2
  have hqmap : quarters.map jsToUpper = quarters := by
    have h1 : quarters.map jsToUpper = quarters.map id := List.map_congr_left hnorm
    rw [h1, List.map_id]
  have hfb : findBrandById env.brands brandId = .ok b := by
    rw [findBrandById, hb]
  refine ⟨(docsMap env.store quarters).foldl (comparisonStep brandId) [], ?_, ?_⟩
  · simp only [compareQuarters]
    rw [hfb, hlq.1]
  · intro k
    rw [mapGet_comparison_foldl env.store brandId (docsMap env.store quarters)
      (fun p hp => mem_docsMap_val env.store quarters p hp) [] k]
    by_cases hmem : k ∈ (docsMap env.store quarters).map Prod.fst
    · rw [if_pos hmem]
      have hk : k ∈ quarters := by
        have h2 := (mem_keys_docsMap env.store quarters k).mp hmem
        rwa [hqmap] at h2
      cases hrec : recFor env.store brandId k with
      | some r => simp [hk, hrec]
      | none => simp [mapGet, hk, hrec]
    · rw [if_neg hmem]
      have hk : k ∉ quarters := by
        intro hkq
        exact hmem ((mem_keys_docsMap env.store quarters k).mpr
          (by rw [hqmap]; exact hkq))
      simp [mapGet, hk]

/-- A record for the brand x-1 carrying one metric value (witness data). -/
def recX (v : Int) : QuarterlyDataRecord :=
  { brandId := "x-1", brandName := "X", csvBrandId := some "1",
    category := some "Tech", metrics := [("Total_Users_pct", some (JSNum.finite v 0))] }

/-- A small valid document for a quarter (witness data). -/
def docQ (q : String) (rs : List QuarterlyDataRecord) : QuarterlyData :=
  { quarter := q, sourceFile := q ++ ".csv", recordCount := rs.length,
    matchedBrands := rs.length, unmatchedBrands := [], records := rs }

/-- C1 witness store: documents exist for all four 2010 quarters; the
brand x-1 has records in Q1, Q2 and Q4 but not in Q3. -/
def storeC1 : Store := fun k =>
  if k == "2010Q1" then Fetched.body (docQ "2010Q1" [recX 61])
  else if k == "2010Q2" then Fetched.body (docQ "2010Q2" [recX 62])
  else if k == "2010Q3" then Fetched.body (docQ "2010Q3" [])
  else if k == "2010Q4" then Fetched.body (docQ "2010Q4" [recX 64])
  else Fetched.missing

/-- C1 witness environment. -/
def envC1 : Env :=
  { brands := [Brand.mk "x-1" "X"], store := storeC1,
    index := some { quarters := ["2010Q1", "2010Q2", "2010Q3", "2010Q4"],
                    quarterFiles := [], totalQuarters := 4 } }

/-- The key list of a compareQuarters result (helper for witnesses). -/
def resultKeys (r : Except ServiceError (List (String × Metrics))) : List String :=
  match r with
  | .ok m => m.map Prod.fst
  | .error _ => []

/-- Witness for C1: the concrete 2010Q1..2010Q4 scenario; the call
succeeds and the mapping has exactly the three keys 2010Q1, 2010Q2,
2010Q4, omitting 2010Q3. -/
theorem compareQuarters_keys_eq_periods_inter_available_witness :
    (∃ m, (compareQuarters envC1 [] "x-1"
        ["2010Q1", "2010Q2", "2010Q3", "2010Q4"]).1 = .ok m
      ∧ ∀ k, (mapGet m k).isSome = true ↔
          (k ∈ ["2010Q1", "2010Q2", "2010Q3", "2010Q4"]
            ∧ (recFor envC1.store "x-1" k).isSome = true))
    ∧ resultKeys (compareQuarters envC1 [] "x-1"
        ["2010Q1", "2010Q2", "2010Q3", "2010Q4"]).1
      = ["2010Q1", "2010Q2", "2010Q4"] := by
  constructor
  · exact compareQuarters_keys_eq_periods_inter_available envC1 "x-1"
      ["2010Q1", "2010Q2", "2010Q3", "2010Q4"] (Brand.mk "x-1" "X") rfl
      (by decide)
      (by
        intro q hq
        fin_cases hq
        · exact ⟨docQ "2010Q1" [recX 61], rfl, rfl⟩
        · exact ⟨docQ "2010Q2" [recX 62], rfl, rfl⟩
        · exact ⟨docQ "2010Q3" [], rfl, rfl⟩
        · exact ⟨docQ "2010Q4" [recX 64], rfl, rfl⟩)
  · rfl

/-- C3 counterexample document: a valid 2010Q2 document holding a record
for brand b1, while the period index will list no quarters at all. -/
def docC3 : QuarterlyData :=
  docQ "2010Q2" [{ brandId := "b1", brandName := "Seven", csvBrandId := some "7",
                   category := some "Bev", metrics := [] }]

/-- C3 counterexample environment: the document for 2010Q2 exists at its
well-known location but 2010Q2 is absent from the period index. -/
def envC3 : Env :=
  { brands := [Brand.mk "b1" "Seven"],
    store := fun k => if k == "2010Q2" then Fetched.body docC3 else Fetched.missing,
    index := some { quarters := [], quarterFiles := [], totalQuarters := 0 } }

/-- C3 counterexample: getMetricsForQuarter returns a (non-null) record
for 2010Q2 — it reads the store directly — while
getAvailableQuartersForBrand, which only scans index quarters, omits
2010Q2; the claimed biconditional fails in the only-if direction. -/
theorem getMetrics_available_biconditional_counterexample :
    (getMetricsForQuarter envC3 [] "b1" "2010Q2").1 = .ok (some [])
    ∧ (getAvailableQuartersForBrand envC3 [] "b1").1 = .ok []
    ∧ ¬ (((getMetricsForQuarter envC3 [] "b1" "2010Q2").1 = .ok (some [])) ↔
          "2010Q2" ∈ ([] : List String)) := by
  refine ⟨rfl, rfl, ?_⟩
  intro h
  exact absurd (h.mp rfl) (by simp)

/-- C3 amended: the biconditional does hold for every period P listed in
the period index, provided the index's quarters are normalized keys whose
documents all exist and validate: getMetricsForQuarter returns a record
for P iff P is in the list getAvailableQuartersForBrand returns. -/
theorem getMetricsForQuarter_some_iff_available_of_indexed (env : Env)
    (brandId P : String) (b : Brand) (idx : QuarterIndex)
    (hb : env.brands.find? (fun x => x.id == brandId) = some b)
    (hidx : env.index = some idx)
    (hnorm : ∀ q ∈ idx.quarters, jsToUpper q = q)
    (hall : ∀ q ∈ idx.quarters, ∃ d, env.store q = Fetched.body d
      ∧ (d.quarter == "") = false)
    (hP : P ∈ idx.quarters) :
    ∃ l, (getAvailableQuartersForBrand env [] brandId).1 = .ok l
      ∧ ((∃ mrec, (getMetricsForQuarter env [] brandId P).1 = .ok (some mrec))
          ↔ P ∈ l) := by
  have hall2 : ∀ q ∈ idx.quarters, ∃ d, env.store (jsToUpper q) = Fetched.body d
      ∧ (d.quarter == "") = false := by
    intro q hq
    rw [hnorm q hq]
    exact hall q hq
  have hlq := loadQuarters_ok env.store [] idx.quarters (cacheOk_nil env.store) hall2
  have hfb : findBrandById env.brands brandId = .ok b := by
    rw [findBrandById, hb]
  have hqmap : idx.quarters.map jsToUpper = idx.quarters := by
    have h1 : idx.quarters.map jsToUpper = idx.quarters.map id :=
      List.map_congr_left hnorm
    rw [h1, List.map_id]
  obtain ⟨dP, hdP0, hqP⟩ := hall P hP
  have hdP : env.store (jsToUpper P) = Fetched.body dP := by
    rw [hnorm P hP]
    exact hdP0
  have hlqP := loadQuarter_ok env.store [] P dP (cacheOk_nil env.store) hdP hqP
  have hgm : (getMetricsForQuarter env [] brandId P).1
      = match dP.records.find? (fun rc => rc.brandId == brandId) with
        | some rc => .ok (some rc.metrics)
        | none => .ok none := by
    simp only [getMetricsForQuarter, hfb, hlqP.1]
    cases hfind0 : dP.records.find? (fun rc => rc.brandId == brandId) with
    | some rc => rfl
    | none => rfl
  have hdoc : docAtKey env.store P = dP := by
    rw [docAtKey, hdP0]
  have hPmem : P ∈ idx.quarters.map jsToUpper := by
    rw [hqmap]
    exact hP
  have hentry : (P, dP) ∈ docsMap env.store idx.quarters := by
    have h2 := mapGet_docsMap env.store idx.quarters P
    rw [if_pos hPmem, hdoc] at h2
    exact mapGet_some_mem _ P dP h2
  refine ⟨sortStrings (((docsMap env.store idx.quarters).filter
      (fun p => p.2.records.any (fun r => r.brandId == brandId))).map
        (fun p => p.1)), ?_, ?_⟩
  · simp only [getAvailableQuartersForBrand, getAvailableQuarters, hfb, hidx,
      hlq.1]
  · constructor
    · intro ⟨mrec, hmrec⟩
      cases hfind : dP.records.find? (fun rc => rc.brandId == brandId) with
      | none =>
        rw [hfind] at hgm
        rw [hgm] at hmrec
        exact absurd hmrec (by simp)
      | some rc =>
        have hany : dP.records.any (fun r => r.brandId == brandId) = true := by
          rw [List.any_eq_true]
          exact ⟨rc,
            @List.mem_of_find?_eq_some QuarterlyDataRecord
              (fun r2 => r2.brandId == brandId) rc dP.records hfind,
            @List.find?_some QuarterlyDataRecord
              (fun r2 => r2.brandId == brandId) rc dP.records hfind⟩
        have hfmem : P ∈ ((docsMap env.store idx.quarters).filter
            (fun p => p.2.records.any (fun r => r.brandId == brandId))).map
              (fun p => p.1) := by
          rw [List.mem_map]
          refine ⟨(P, dP), ?_, rfl⟩
          rw [List.mem_filter]
          exact ⟨hentry, hany⟩
        exact (List.Perm.mem_iff (List.perm_insertionSort _ _)).mpr hfmem
    · intro hPl
      have hPl2 : P ∈ ((docsMap env.store idx.quarters).filter
          (fun p => p.2.records.any (fun r => r.brandId == brandId))).map
            (fun p => p.1) :=
        (List.Perm.mem_iff (List.perm_insertionSort _ _)).mp hPl
      obtain ⟨p, hpfilter, hp1⟩ := List.mem_map.mp hPl2
      have hpmem := (List.mem_filter.mp hpfilter).1
      have hpany := (List.mem_filter.mp hpfilter).2
      have hpval : p.2 = dP := by
        rw [mem_docsMap_val env.store idx.quarters p hpmem, hp1, hdoc]
      rw [hpval] at hpany
      obtain ⟨r, hrmem, hrpred⟩ := List.any_eq_true.mp hpany
      have hfind : (dP.records.find? (fun rc => rc.brandId == brandId)).isSome
          = true := by
        rw [List.find?_isSome]
        exact ⟨r, hrmem, hrpred⟩
      cases hfind2 : dP.records.find? (fun rc => rc.brandId == brandId) with
      | none =>
        rw [hfind2] at hfind
        exact absurd hfind (by simp)
      | some rc =>
        refine ⟨rc.metrics, ?_⟩
        rw [hgm, hfind2]

/-- Witness for C3 amended: in the fully-indexed envC1, the record for
x-1 in 2010Q1 exists iff 2010Q1 is in the availability list. -/
theorem getMetricsForQuarter_some_iff_available_of_indexed_witness :
    ∃ l, (getAvailableQuartersForBrand envC1 [] "x-1").1 = .ok l
      ∧ ((∃ mrec, (getMetricsForQuarter envC1 [] "x-1" "2010Q1").1 = .ok (some mrec))
          ↔ "2010Q1" ∈ l) :=
  getMetricsForQuarter_some_iff_available_of_indexed envC1 "x-1" "2010Q1"
    (Brand.mk "x-1" "X")
    { quarters := ["2010Q1", "2010Q2", "2010Q3", "2010Q4"],
      quarterFiles := [], totalQuarters := 4 }
    rfl rfl (by decide)
    (by
      intro q hq
      fin_cases hq
      · exact ⟨docQ "2010Q1" [recX 61], rfl, rfl⟩
      · exact ⟨docQ "2010Q2" [recX 62], rfl, rfl⟩
      · exact ⟨docQ "2010Q3" [], rfl, rfl⟩
      · exact ⟨docQ "2010Q4" [recX 64], rfl, rfl⟩)
    (by decide)

/-! ## Concurrent same-key loads (the request-coalescing claim) -/

/-- The shared loader state visible to concurrent loadQuarter calls: the
document cache plus a count of underlying fetches started. -/
structure FlightState where
  cache : Cache
  fetches : Nat

/-- One caller's continuation point inside loadQuarter.  JS runs an async
function synchronously up to its first await: the cache check happens on
entry; the fetch suspends the caller; validation and the cache write
happen when the caller resumes. -/
inductive CallerPhase where
  | start
  | awaitingFetch
  | finished (r : Except LoadError QuarterlyData)

/-- One scheduler step of a single caller running loadQuarter on key q
against the pure store: from start it performs the synchronous prefix
(normalize, cache check; on a miss the underlying fetch is started and the
caller suspends); from awaitingFetch it consumes the fetch outcome,
validates and caches exactly as loadQuarter does. -/
def callerStep (store : Store) (q : String) :
    CallerPhase → FlightState → CallerPhase × FlightState
  | .start, s =>
    match mapGet s.cache (jsToUpper q) with
    | some d => (.finished (.ok d), s)
    | none => (.awaitingFetch, { s with fetches := s.fetches + 1 })
  | .awaitingFetch, s =>
    match store (jsToUpper q) with
    | .missing => (.finished (.error (.quarterNotFound (jsToUpper q))), s)
    | .httpError => (.finished (.error .other), s)
    | .invalid => (.finished (.error (.invalidQuarterData (jsToUpper q))), s)
    | .body d =>
      if d.quarter == "" then
        (.finished (.error (.invalidQuarterData (jsToUpper q))), s)
      else (.finished (.ok d), { s with cache := mapSet s.cache (jsToUpper q) d })
  | .finished r, s => (.finished r, s)

/-- Run two concurrent callers (keys q1 and q2) under a schedule: false
schedules caller 1, true schedules caller 2. -/
def runTwo (store : Store) (q1 q2 : String) :
    List Bool → CallerPhase × CallerPhase × FlightState →
    CallerPhase × CallerPhase × FlightState
  | [], st => st
  | false :: rest, (p1, p2, s) =>
    let r := callerStep store q1 p1 s
    runTwo store q1 q2 rest (r.1, p2, r.2)
  | true :: rest, (p1, p2, s) =>
    let r := callerStep store q2 p2 s
    runTwo store q1 q2 rest (p1, r.1, r.2)

/-- C2 counterexample: two concurrent callers request the same uncached
key 2010Q1, the second entering loadQuarter before the first caller's
fetch resolves (schedule 1,2,1,2).  TWO underlying fetches are performed —
one per caller — refuting the claimed single-flight behaviour; both
callers settle with the document and the cache ends with one entry. -/
theorem loadQuarter_concurrent_two_fetches :
    runTwo storeA "2010Q1" "2010Q1" [false, true, false, true]
        (.start, .start, { cache := [], fetches := 0 })
      = (.finished (.ok docA), .finished (.ok docA),
         { cache := [("2010Q1", docA)], fetches := 2 }) := by
  rfl

/-- C2 amended: the loader performs no request coalescing.  Whenever the
second caller for a not-yet-cached key arrives before the first caller's
fetch resolves (interleaved schedule), each caller performs its own
underlying fetch — one fetch per caller, not one in total; both are then
served the same document and the cache converges to one entry.  Only a
caller arriving after a load completed (sequential schedule) is served
from the cache without a fetch. -/
theorem loadQuarter_concurrent_no_coalescing (store : Store) (cache : Cache)
    (q : String) (d : QuarterlyData) (n : Nat)
    (hnc : mapGet cache (jsToUpper q) = none)
    (hd : store (jsToUpper q) = Fetched.body d)
    (hq : (d.quarter == "") = false) :
    runTwo store q q [false, true, false, true]
        (.start, .start, { cache := cache, fetches := n })
      = (.finished (.ok d), .finished (.ok d),
         { cache := mapSet (mapSet cache (jsToUpper q) d) (jsToUpper q) d,
           fetches := n + 2 })
    ∧ runTwo store q q [false, false, true]
        (.start, .start, { cache := cache, fetches := n })
      = (.finished (.ok d), .finished (.ok d),
         { cache := mapSet cache (jsToUpper q) d, fetches := n + 1 }) := by
  have hset : mapGet (mapSet cache (jsToUpper q) d) (jsToUpper q) = some d := by
    rw [mapGet_mapSet, if_pos rfl]
  constructor
  · simp [runTwo, callerStep, hnc, hd, hq]
  · simp [runTwo, callerStep, hnc, hd, hq, hset]

/-- Witness for C2 amended: against storeA, the interleaved schedule
performs two fetches, the sequential one a single fetch. -/
theorem loadQuarter_concurrent_no_coalescing_witness :
    (runTwo storeA "2010q1" "2010q1" [false, true, false, true]
        (.start, .start, { cache := [], fetches := 0 })).2.2.fetches = 2
    ∧ (runTwo storeA "2010q1" "2010q1" [false, false, true]
        (.start, .start, { cache := [], fetches := 0 })).2.2.fetches = 1 := by
  have h := loadQuarter_concurrent_no_coalescing storeA [] "2010q1" docA 0 rfl rfl rfl
  constructor
  · rw [h.1]
  · rw [h.2]
